import Mathlib

/-
  Verification development for the Bluesky-Post-Explainer repository.

  The agent control loop (src/agent/core.py), the tool-argument convention,
  the Bluesky URL parsing of BlueskyTool.execute (src/agent/tools.py) and the
  scoring plumbing of the evaluation harness (src/eval/harness.py) are embedded
  shallowly over `List Char` strings.  External collaborators (the chat model,
  the tool backends, the judge model) are modelled as oracle parameters, as the
  spec describes them: replaceable collaborators behind a uniform interface.
-/

namespace Bluesky

/-- Python whitespace as used by str.strip() (ASCII portion; the source only
ever strips model output and marker remainders, which are ASCII-delimited). -/
def isPySpace (c : Char) : Bool :=
  c == ' ' || c == '\t' || c == '\n' || c == '\r' || c == '\x0b' || c == '\x0c'

/-- Python str.strip(): drop whitespace from both ends. -/
def pyStrip (s : List Char) : List Char :=
  ((s.dropWhile isPySpace).reverse.dropWhile isPySpace).reverse

/-- Python str.lower() on the ASCII range (tool names in the source are ASCII). -/
def pyLower (s : List Char) : List Char := s.map Char.toLower

/-- Python substring containment, `sub in s`: some suffix of `s` starts with `sub`. -/
def containsSub (sub : List Char) : List Char → Bool
  | [] => sub.isEmpty
  | c :: rest => sub.isPrefixOf (c :: rest) || containsSub sub rest

/-- The text of `s` strictly before the first occurrence of `sub`
(all of `s` when `sub` does not occur). -/
def beforeFirst (sub : List Char) : List Char → List Char
  | [] => []
  | c :: rest => if sub.isPrefixOf (c :: rest) then [] else c :: beforeFirst sub rest

/-- The text of `s` strictly after the first occurrence of `sub`
(`[]` when `sub` does not occur). -/
def afterFirstD (sub : List Char) : List Char → List Char
  | [] => []
  | c :: rest =>
    if sub.isPrefixOf (c :: rest) then (c :: rest).drop sub.length
    else afterFirstD sub rest

/-- The text between the first occurrence of `sub` and the next occurrence of
`sub` after it; equals everything after the first occurrence when `sub` occurs
exactly once. -/
def segBetween (sub s : List Char) : List Char := beforeFirst sub (afterFirstD sub s)

/-- One pass of Python str.split(sep): emit the chunk before the first
occurrence of the separator and continue after it.  The fuel argument only
serves structural termination; `pySplit` supplies `s.length + 1`, which is
never exhausted for a non-empty separator (every recursive call strictly
shortens the string).  All separators in the source are non-empty (Python
raises on an empty separator). -/
def splitLoop (sub : List Char) : Nat → List Char → List (List Char)
  | 0, s => [s]
  | fuel + 1, s =>
    if containsSub sub s then beforeFirst sub s :: splitLoop sub fuel (afterFirstD sub s)
    else [s]

/-- Python str.split(sep) for a non-empty separator. -/
def pySplit (sub s : List Char) : List (List Char) := splitLoop sub (s.length + 1) s

/-- Python llm_output.split(backslash-n): the line list of a text. -/
def pyLines (s : List Char) : List (List Char) := pySplit "\n".toList s

/-- Conversation roles used by BlueskyAgent.run (src/agent/core.py). -/
inductive Role where
  | system
  | user
  | assistant
  deriving DecidableEq

/-- One transcript turn: a role tag and a text payload (spec section 3). -/
structure Turn where
  role : Role
  content : List Char
  deriving DecidableEq

/-- The parse outcome of one assistant turn inside BlueskyAgent.run:
a final answer, an extracted tool call, a caught extraction exception
(carrying str(e)), or no recognizable action (spec section 4.3). -/
inductive ParsedAction where
  | finalAnswer (text : List Char)
  | toolCall (name input : List Char)
  | parseError (msg : List Char)
  | noAction
  deriving DecidableEq

/-- Whether a parse outcome is a final answer. -/
def ParsedAction.isFinal : ParsedAction → Bool
  | .finalAnswer _ => true
  | _ => false

/-- The marker literals of BlueskyAgent.run. -/
def finalAnswerMarker : List Char := "Final Answer:".toList

/-- Marker for an action line. -/
def actionMarker : List Char := "Action:".toList

/-- Marker for an action-input line. -/
def actionInputMarker : List Char := "Action Input:".toList

/-- The registered tool names, the keys of get_tools() (src/agent/tools.py). -/
def toolNames : List (List Char) := ["search".toList, "vision".toList, "bluesky_fetch".toList]

/-- self.max_steps of BlueskyAgent (src/agent/core.py). -/
def maxSteps : Nat := 5

/-- The fixed exhaustion message returned when the step budget runs out. -/
def exhaustedMsg : List Char :=
  "Error: Maximum steps reached without a final answer.".toList

/-- The fixed instructive observation for output with no action markers. -/
def instructiveMsg : List Char :=
  "Observation: I need to specify an Action and Action Input to use a tool, or provide a Final Answer.".toList

/-- Prefix of the observation produced from a caught exception
(f-string "Observation: Error parsing action: str(e)"). -/
def obsErrorMarker : List Char := "Observation: Error parsing action: ".toList

/-- str(e) of the IndexError raised by indexing an empty list in Python. -/
def indexErrorMsg : List Char := "list index out of range".toList

/-- An ASCII apostrophe (used by the f-string "Tool not found" message). -/
def squote : Char := Char.ofNat 39

/-- A keyword-argument invocation of Tool.execute: the tool name looked up in
the registry, the keyword the input is passed under, and the input text. -/
structure ToolInvocation where
  name : List Char
  key : List Char
  value : List Char
  deriving DecidableEq

/-- The argument-key convention of the dispatch branch in BlueskyAgent.run:
search gets `query`, bluesky_fetch gets `url`, everything else `image_url`. -/
def dispatchKey (name : List Char) : List Char :=
  if name = "search".toList then "query".toList
  else if name = "bluesky_fetch".toList then "url".toList
  else "image_url".toList

/-- The Tool.execute invocation BlueskyAgent.run dispatches for a tool call. -/
def dispatchCall (name input : List Char) : ToolInvocation :=
  ⟨name, dispatchKey name, input⟩

/-- The parse step of BlueskyAgent.run on one (already stripped) assistant
text, exactly as interleaved in the source: a Final Answer check by substring
containment with split-and-take-index-1 extraction, then the Action / Action
Input extraction from the first line starting with each marker (the IndexError
raised when the substrings occur on no line start is caught by the except arm
and becomes `parseError`), else the no-action case. -/
def parseOutput (text : List Char) : ParsedAction :=
  if containsSub finalAnswerMarker text then
    .finalAnswer (pyStrip ((pySplit finalAnswerMarker text).getD 1 []))
  else if containsSub actionMarker text && containsSub actionInputMarker text then
    match (pyLines text).filter (fun l => actionMarker.isPrefixOf l),
          (pyLines text).filter (fun l => actionInputMarker.isPrefixOf l) with
    | actionLine :: _, inputLine :: _ =>
      .toolCall (pyLower (pyStrip ((pySplit actionMarker actionLine).getD 1 [])))
        (pyStrip ((pySplit actionInputMarker inputLine).getD 1 []))
    | _, _ => .parseError indexErrorMsg
    else .noAction

/-- The observation string BlueskyAgent.run synthesizes for a non-final parse
outcome.  `te` is the tool backend oracle: `.ok` a returned string, `.error`
a raised exception with its description (tool execution happens inside the
same try as extraction, so its exceptions share the except arm).  The
finalAnswer case never reaches this function in the loop. -/
def observationFor (te : ToolInvocation → Except (List Char) (List Char)) :
    ParsedAction → List Char
  | .finalAnswer _ => []
  | .toolCall name input =>
    if name ∈ toolNames then
      match te (dispatchCall name input) with
      | .ok r => "Observation: ".toList ++ r
      | .error e => obsErrorMarker ++ e
    else
      "Observation: Error: Tool ".toList ++ [squote] ++ name ++ [squote]
        ++ " not found.".toList
  | .parseError m => obsErrorMarker ++ m
  | .noAction => instructiveMsg

/-- The while loop of BlueskyAgent.run.  `model` is the chat-completion oracle
(the response text as a function of the transcript; the stop=["Observation:"]
marker is transport-level and absorbed into the oracle).  One iteration:
invoke the model, strip, append the assistant turn, parse; on a final answer
return its text, otherwise append the synthesized observation as a user turn
and continue.  The fuel is max_steps - step_count. -/
def runLoop (model : List Turn → List Char)
    (te : ToolInvocation → Except (List Char) (List Char)) :
    Nat → List Turn → List Turn × List Char
  | 0, hist => (hist, exhaustedMsg)
  | fuel + 1, hist =>
    match parseOutput (pyStrip (model hist)) with
    | .finalAnswer t => (hist ++ [⟨Role.assistant, pyStrip (model hist)⟩], t)
    | pa =>
      runLoop model te fuel
        (hist ++ [⟨Role.assistant, pyStrip (model hist)⟩,
                  ⟨Role.user, observationFor te pa⟩])

/-- An apostrophe as a one-character string, for prompt text assembly. -/
def squoteS : String := String.mk [squote]

/-- The rendered text of BlueskyAgent._construct_system_prompt() with the
tool descriptions of get_tools() interpolated (deterministic given the
registry; no claim inspects this text, only the role of its turn). -/
def systemPromptText : List Char :=
  (String.intercalate "\n"
    ["You are an advanced AI assistant designed to explain Bluesky posts, memes, and technical jargon to a general audience.",
     "You have access to the following tools:",
     "",
     "- search: Useful for finding current information, technical documentation, or explaining memes. Input should be a search query.",
     "- vision: Useful for describing the content of an image from a URL. Input should be the image URL.",
     "- bluesky_fetch: Useful for fetching the actual text content of a Bluesky post given its URL. Input should be the full Bluesky post URL.",
     "",
     "You function as a ReAct (Reason + Act) agent. For each step, you must follow this format STRICTLY:",
     "",
     "Thought: [Your reasoning about what information is missing or what to do next]",
     "Action: [The name of the tool to use, e.g., " ++ squoteS ++ "search" ++ squoteS
       ++ " or " ++ squoteS ++ "vision" ++ squoteS ++ "]",
     "Action Input: [The input for the tool, e.g., a search query or image URL]",
     "",
     "Once you receive an Observation, you will repeat the cycle until you have enough information.",
     "When you are ready to provide the final answer, use this format:",
     "",
     "Thought: I have sufficient information.",
     "Final Answer:",
     "* [Point 1] (Source)",
     "* [Point 2] (Source)",
     "* ...",
     "",
     "PROTOCOL (Prioritized Decision Tree):",
     "",
     "1. **MISSING CONTENT CHECK**:",
     "   - Is the post content missing but a URL is provided?",
     "   - If YES: Use `bluesky_fetch` to retrieve the text.",
     "   - Then proceed to Step 2 with the fetched text.",
     "",
     "2. **CHECK FOR IMAGES (CONTEXT ASSEMBLY)**:",
     "   - Does the post (or fetched content) contain an image URL?",
     "   - If YES: **Use the `vision` tool immediately** to get a description.",
     "   - Combine the Post Text + Image Description for the next steps.",
     "",
     "3. **ANALYZE CONTENT SIMPLICITY**: ",
     "   - Is the combined context (Text + Image) strictly about simple, common knowledge?",
     "   - If YES: **Do NOT search.** Provide a final Answer immediately.",
     "   - If NO: Proceed to step 4.",
     "",
     "4. **CHECK FOR JARGON/MEMES**:",
     "   - Does the post contain technical jargon, memes, or slang that isn" ++ squoteS
       ++ "t explained by the image?",
     "   - If YES: Use the `search` tool to find definitions or origins.",
     "",
     "5. **FINALIZE**:",
     "   - Once you have enough context, provide the Final Answer.",
     "",
     "RULES:",
     "- \"Action\" must be one of [" ++ squoteS ++ "search" ++ squoteS ++ ", "
       ++ squoteS ++ "vision" ++ squoteS ++ ", " ++ squoteS ++ "bluesky_fetch"
       ++ squoteS ++ "].",
     "- If no search results are found, try a different query.",
     "- **Output the Final Answer as a list of bullet points.**",
     ""]).toList

/-- The initial user turn of a run (f-string in BlueskyAgent.run). -/
def initialUserContent (postContent postUrl : List Char) : List Char :=
  "Please explain this Bluesky post:\nURL: ".toList ++ postUrl
    ++ "\nContent: ".toList ++ postContent

/-- BlueskyAgent.run: the previous value of self.history (first parameter) is
overwritten by the fresh two-turn seed before the loop starts, so it never
influences the run.  Returns the final transcript together with the returned
string (the self.history field plus run's return value). -/
def run (_prevHistory : List Turn) (model : List Turn → List Char)
    (te : ToolInvocation → Except (List Char) (List Char))
    (postContent postUrl : List Char) : List Turn × List Char :=
  runLoop model te maxSteps
    [⟨Role.system, systemPromptText⟩,
     ⟨Role.user, initialUserContent postContent postUrl⟩]

/-- Number of assistant turns in a transcript.  The loop appends exactly one
assistant turn per model invocation, so this counts model invocations. -/
def assistantCount (l : List Turn) : Nat :=
  l.countP (fun t => t.role == Role.assistant)

/-- The role the transcript invariant expects at global index i:
system at 0, user at 1, then assistant at even and user at odd indices. -/
def expectedRole (i : Nat) : Role :=
  if i = 0 then .system else if i % 2 = 1 then .user else .assistant

/-- Every turn of `l` carries the expected role, when `l` starts at global
transcript index `i`. -/
def rolesFrom : Nat → List Turn → Prop
  | _, [] => True
  | i, t :: rest => t.role = expectedRole i ∧ rolesFrom (i + 1) rest

/-- The transcript role invariant of spec section 3. -/
def rolesOk (l : List Turn) : Prop := rolesFrom 0 l

/-- Markers and messages of BlueskyTool.execute (src/agent/tools.py). -/
def profileMarker : List Char := "bsky.app/profile/".toList

/-- The post-path marker of a Bluesky URL. -/
def postMarker : List Char := "/post/".toList

/-- A slash separator (trailing-slash handling of the rkey). -/
def slashSep : List Char := "/".toList

/-- The format-error string of BlueskyTool.execute. -/
def formatErrMsg : List Char := "Error: Invalid Bluesky URL format.".toList

/-- What BlueskyTool.execute returns when the parts[1] lookup raises
IndexError and the except arm formats it. -/
def fetchIndexErrMsg : List Char :=
  "Error fetching Bluesky post: ".toList ++ indexErrorMsg

/-- The URL-parsing prefix of BlueskyTool.execute: the format check and the
handle / rkey extraction.  `.ok (handle, rkey)` means execution proceeds to
the network fetch (an external collaborator, out of scope); `.error s` means
execute returns the string `s` without fetching (either the format-error
return or the caught IndexError from parts[1] when the split after the
profile marker contains no "/post/"). -/
def blueskyExtract (url : List Char) : Except (List Char) (List Char × List Char) :=
  if !containsSub profileMarker url || !containsSub postMarker url then
    Except.error formatErrMsg
  else
    match pySplit postMarker ((pySplit profileMarker url).getD 1 []) with
    | handle :: p1 :: _ => Except.ok (handle, (pySplit slashSep p1).getD 0 [])
    | _ => Except.error fetchIndexErrMsg

/-- A judge score as consumed by the harness: integer factuality and utility
plus free-text reasoning (src/eval/harness.py). -/
structure JudgeScore where
  factuality : Int
  utility : Int
  reasoning : List Char
  deriving DecidableEq

/-- The sentinel score the except arm of _judge_output returns. -/
def judgeErrorScore : JudgeScore := ⟨0, 0, "Error in judging.".toList⟩

/-- EvaluationHarness._judge_output: the judge model call plus json.loads is
the oracle argument (`.ok` a parsed score, taken over unvalidated; `.error`
any raised exception).  Only the except arm is local logic. -/
def judgeOutput (judgeReply : Except (List Char) JudgeScore) : JudgeScore :=
  match judgeReply with
  | .ok sc => sc
  | .error _ => judgeErrorScore

/-- An evaluation case as loaded from eval/cases.json (spec section 6). -/
structure Case where
  id : List Char
  postContent : Option (List Char)
  postUrl : List Char
  goldStandard : List Char
  deriving DecidableEq

/-- str() of the ZeroDivisionError Python raises for division by zero. -/
def zeroDivMsg : List Char := "ZeroDivisionError: division by zero".toList

/-- The per-model average computation of run_benchmark:
sum(scores) / len(model_results) for factuality and utility, with no guard;
the `.error` branch models the ZeroDivisionError Python raises when the
denominator is zero. -/
def modelAverages (results : List JudgeScore) : Except (List Char) (Rat × Rat) :=
  if results.length = 0 then Except.error zeroDivMsg
  else
    Except.ok
      ((((results.map (fun r => r.factuality)).sum : Int) : Rat) / (results.length : Rat),
       (((results.map (fun r => r.utility)).sum : Int) : Rat) / (results.length : Rat))

/-- run_benchmark for one model: score every loaded case (the whole
agent-plus-judge pipeline for one case is the oracle `evalCase`), then take
the per-model averages. -/
def runBenchmarkAverages (evalCase : Case → JudgeScore) (cases : List Case) :
    Except (List Char) (Rat × Rat) :=
  modelAverages (cases.map evalCase)

/-- When the separator does not occur, the before-first segment is the whole string. -/
theorem beforeFirst_of_not_contains {sub : List Char} :
    ∀ {t : List Char}, containsSub sub t = false → beforeFirst sub t = t := by
  intro t
  induction t with
  | nil => intro _; rfl
  | cons c rest ih =>
    intro h
    simp only [containsSub, Bool.or_eq_false_iff] at h
    simp [beforeFirst, h.1, ih h.2]

/-- A non-empty separator never occurs in the empty string. -/
theorem containsSub_ne_nil {sub t : List Char} (hsub : sub ≠ [])
    (hc : containsSub sub t = true) : t ≠ [] := by
  intro h
  subst h
  simp only [containsSub, List.isEmpty_iff] at hc
  exact hsub hc

/-- Python split when the separator does not occur: the singleton list. -/
theorem pySplit_of_not_contains {sub t : List Char} (h : containsSub sub t = false) :
    pySplit sub t = [t] := by
  simp [pySplit, splitLoop, h]

/-- Head of a fuelled split pass: the text before the first occurrence. -/
theorem splitLoop_getD_zero (sub : List Char) (k : Nat) (t : List Char) :
    (splitLoop sub (k + 1) t).getD 0 [] = beforeFirst sub t := by
  by_cases h : containsSub sub t = true
  · simp [splitLoop, h]
  · simp [splitLoop, h, @beforeFirst_of_not_contains sub t (by simpa using h)]

/-- Element 0 of Python split: the text before the first occurrence. -/
theorem pySplit_getD_zero (sub t : List Char) :
    (pySplit sub t).getD 0 [] = beforeFirst sub t := by
  simpa [pySplit] using splitLoop_getD_zero sub t.length t

/-- When the separator occurs, Python split starts with the chunk before the
first occurrence followed by the chunk between the first and second occurrence. -/
theorem pySplit_cons {sub t : List Char} (hsub : sub ≠ []) (hc : containsSub sub t = true) :
    ∃ rest, pySplit sub t = beforeFirst sub t :: segBetween sub t :: rest := by
  obtain ⟨k, hk⟩ : ∃ k, t.length = k + 1 := by
    cases t with
    | nil => exact absurd rfl (containsSub_ne_nil hsub hc)
    | cons c ts => exact ⟨ts.length, by simp⟩
  have h1 : pySplit sub t = beforeFirst sub t :: splitLoop sub t.length (afterFirstD sub t) := by
    simp [pySplit, splitLoop, hc]
  rw [h1, hk]
  by_cases hc2 : containsSub sub (afterFirstD sub t) = true
  · exact ⟨splitLoop sub k (afterFirstD sub (afterFirstD sub t)),
      by simp [splitLoop, hc2, segBetween]⟩
  · refine ⟨[], ?_⟩
    simp [splitLoop, hc2, segBetween,
      @beforeFirst_of_not_contains sub (afterFirstD sub t) (by simpa using hc2)]

/-- Element 1 of Python split, when the separator occurs: the text between the
first and the second occurrence (everything after the first occurrence when
the separator occurs exactly once). -/
theorem pySplit_getD_one {sub t : List Char} (hsub : sub ≠ []) (hc : containsSub sub t = true) :
    (pySplit sub t).getD 1 [] = segBetween sub t := by
  obtain ⟨rest, h⟩ := pySplit_cons hsub hc
  rw [h]
  rfl

/-- Containment is preserved by prepending text. -/
theorem containsSub_append_right (sub l₂ : List Char) (h : containsSub sub l₂ = true) :
    ∀ l₁, containsSub sub (l₁ ++ l₂) = true := by
  intro l₁
  induction l₁ with
  | nil => simpa using h
  | cons c cs ih => simp [containsSub, ih]

/-- A line that starts with a marker contains it. -/
theorem containsSub_of_isPrefixOf {sub l : List Char} (h : sub.isPrefixOf l = true) :
    containsSub sub l = true := by
  cases l with
  | nil =>
    cases sub with
    | nil => rfl
    | cons a as => simp [List.isPrefixOf] at h
  | cons c rest => simp [containsSub, h]

/-- find? returns the head of the filtered list (Python first-match indexing). -/
theorem find_eq_filter_head {α : Type} (p : α → Bool) :
    ∀ l : List α, l.find? p = (l.filter p).head? := by
  intro l
  induction l with
  | nil => rfl
  | cons a as ih =>
    by_cases hp : p a = true
    · rw [List.find?_cons_of_pos _ hp, List.filter_cons_of_pos hp]
      rfl
    · rw [List.find?_cons_of_neg _ (by simpa using hp),
        List.filter_cons_of_neg (by simpa using hp), ih]

/-- One non-final loop iteration: append the assistant turn and the
synthesized observation as a user turn, then continue with one less step. -/
theorem runLoop_step (model : List Turn → List Char)
    (te : ToolInvocation → Except (List Char) (List Char)) (fuel : Nat) (hist : List Turn)
    (h : (parseOutput (pyStrip (model hist))).isFinal = false) :
    runLoop model te (fuel + 1) hist =
      runLoop model te fuel
        (hist ++ [⟨Role.assistant, pyStrip (model hist)⟩,
                  ⟨Role.user, observationFor te (parseOutput (pyStrip (model hist)))⟩]) := by
  cases hp : parseOutput (pyStrip (model hist)) with
  | finalAnswer t => rw [hp] at h; simp [ParsedAction.isFinal] at h
  | toolCall n i => simp only [runLoop, hp]
  | parseError m => simp only [runLoop, hp]
  | noAction => simp only [runLoop, hp]

/-- At an even index at least 2 the invariant expects the assistant role. -/
theorem expectedRole_even {n : Nat} (hl : 2 ≤ n) (he : n % 2 = 0) :
    expectedRole n = Role.assistant := by
  unfold expectedRole
  rw [if_neg (by omega), if_neg (by omega)]

/-- At an odd index the invariant expects the user role. -/
theorem expectedRole_odd {n : Nat} (ho : n % 2 = 1) :
    expectedRole n = Role.user := by
  unfold expectedRole
  rw [if_neg (by omega), if_pos ho]

/-- Appending one turn with the expected role preserves the invariant. -/
theorem rolesFrom_append {t : Turn} :
    ∀ (l : List Turn) (i : Nat), rolesFrom i l → t.role = expectedRole (i + l.length) →
      rolesFrom i (l ++ [t]) := by
  intro l
  induction l with
  | nil => intro i _ h2; exact ⟨by simpa using h2, trivial⟩
  | cons a as ih =>
    intro i h1 h2
    refine ⟨h1.1, ih (i + 1) h1.2 ?_⟩
    have harith : i + 1 + as.length = i + (a :: as).length := by
      simp [List.length_cons]
      omega
    rw [harith]
    exact h2

/-- The role invariant restricts to every prefix of a transcript. -/
theorem rolesFrom_prefix : ∀ (pre rest : List Turn) (i : Nat),
    rolesFrom i (pre ++ rest) → rolesFrom i pre := by
  intro pre
  induction pre with
  | nil => intro _ _ _; trivial
  | cons a as ih => intro rest i h; exact ⟨h.1, ih rest (i + 1) h.2⟩

/-- Appending an assistant turn, or an assistant turn followed by a user
observation, to a role-correct transcript of even length at least 2 keeps it
role-correct. -/
theorem roles_extend {hist : List Turn} (h : rolesOk hist) (he : hist.length % 2 = 0)
    (hl : 2 ≤ hist.length) (x y : List Char) :
    rolesOk (hist ++ [⟨Role.assistant, x⟩])
    ∧ rolesOk (hist ++ [⟨Role.assistant, x⟩, ⟨Role.user, y⟩]) := by
  have hA : rolesOk (hist ++ [⟨Role.assistant, x⟩]) := by
    apply rolesFrom_append hist 0 h
    show Role.assistant = expectedRole (0 + hist.length)
    rw [Nat.zero_add, expectedRole_even hl he]
  refine ⟨hA, ?_⟩
  have hsplit : hist ++ [(⟨Role.assistant, x⟩ : Turn), (⟨Role.user, y⟩ : Turn)]
      = (hist ++ [(⟨Role.assistant, x⟩ : Turn)]) ++ [(⟨Role.user, y⟩ : Turn)] := by simp
  rw [hsplit]
  apply rolesFrom_append _ 0 hA
  show Role.user = expectedRole (0 + (hist ++ [(⟨Role.assistant, x⟩ : Turn)]).length)
  rw [Nat.zero_add, List.length_append, expectedRole_odd (by simp; omega)]

/-- The loop preserves the role invariant from any role-correct even-length
seed: the final transcript is role-correct. -/
theorem runLoop_roles (model : List Turn → List Char)
    (te : ToolInvocation → Except (List Char) (List Char)) :
    ∀ (fuel : Nat) (hist : List Turn), rolesOk hist → hist.length % 2 = 0 →
      2 ≤ hist.length → rolesOk (runLoop model te fuel hist).1 := by
  intro fuel
  induction fuel with
  | zero => intro hist h _ _; exact h
  | succ f ih =>
    intro hist h he hl
    have hrec : ∀ pa : ParsedAction,
        rolesOk (runLoop model te f
          (hist ++ [⟨Role.assistant, pyStrip (model hist)⟩,
                    ⟨Role.user, observationFor te pa⟩])).1 := by
      intro pa
      apply ih
      · exact (roles_extend h he hl _ _).2
      · simp [List.length_append]
        omega
      · simp [List.length_append]
    cases hp : parseOutput (pyStrip (model hist)) with
    | finalAnswer t =>
      simp only [runLoop, hp]
      exact (roles_extend h he hl (pyStrip (model hist)) []).1
    | toolCall n i => simp only [runLoop, hp]; exact hrec _
    | parseError m => simp only [runLoop, hp]; exact hrec _
    | noAction => simp only [runLoop, hp]; exact hrec _

/-- Assistant-turn counting distributes over append. -/
theorem assistantCount_append (l₁ l₂ : List Turn) :
    assistantCount (l₁ ++ l₂) = assistantCount l₁ + assistantCount l₂ := by
  simp [assistantCount, List.countP_append]

/-- One loop iteration adds exactly one assistant turn. -/
theorem assistantCount_step (hist : List Turn) (x y : List Char) :
    assistantCount (hist ++ [⟨Role.assistant, x⟩, ⟨Role.user, y⟩])
      = assistantCount hist + 1 := by
  simp [assistantCount, List.countP_append, List.countP_cons]

/-- The loop performs at most `fuel` further model invocations. -/
theorem runLoop_count_le (model : List Turn → List Char)
    (te : ToolInvocation → Except (List Char) (List Char)) :
    ∀ (fuel : Nat) (hist : List Turn),
      assistantCount (runLoop model te fuel hist).1 ≤ assistantCount hist + fuel := by
  intro fuel
  induction fuel with
  | zero => intro hist; simp [runLoop]
  | succ f ih =>
    intro hist
    have hrec : ∀ pa : ParsedAction,
        assistantCount (runLoop model te f
          (hist ++ [⟨Role.assistant, pyStrip (model hist)⟩,
                    ⟨Role.user, observationFor te pa⟩])).1
          ≤ assistantCount hist + (f + 1) := by
      intro pa
      have hih := ih (hist ++ [⟨Role.assistant, pyStrip (model hist)⟩,
        ⟨Role.user, observationFor te pa⟩])
      rw [assistantCount_step] at hih
      omega
    cases hp : parseOutput (pyStrip (model hist)) with
    | finalAnswer t =>
      simp only [runLoop, hp]
      rw [assistantCount_append]
      have hone : assistantCount [(⟨Role.assistant, pyStrip (model hist)⟩ : Turn)] = 1 := by
        simp [assistantCount, List.countP_cons]
      omega
    | toolCall n i => simp only [runLoop, hp]; exact hrec _
    | parseError m => simp only [runLoop, hp]; exact hrec _
    | noAction => simp only [runLoop, hp]; exact hrec _

/-- When no model response ever parses to a final answer, the loop consumes
its whole budget, returns the exhaustion message, and performs exactly `fuel`
further model invocations. -/
theorem runLoop_exhaust (model : List Turn → List Char)
    (te : ToolInvocation → Except (List Char) (List Char))
    (hnf : ∀ (h : List Turn) (t : List Char),
      parseOutput (pyStrip (model h)) ≠ ParsedAction.finalAnswer t) :
    ∀ (fuel : Nat) (hist : List Turn),
      (runLoop model te fuel hist).2 = exhaustedMsg
      ∧ assistantCount (runLoop model te fuel hist).1 = assistantCount hist + fuel := by
  intro fuel
  induction fuel with
  | zero => intro hist; simp [runLoop]
  | succ f ih =>
    intro hist
    have hrec : ∀ pa : ParsedAction,
        (runLoop model te f
          (hist ++ [⟨Role.assistant, pyStrip (model hist)⟩,
                    ⟨Role.user, observationFor te pa⟩])).2 = exhaustedMsg
        ∧ assistantCount (runLoop model te f
            (hist ++ [⟨Role.assistant, pyStrip (model hist)⟩,
                      ⟨Role.user, observationFor te pa⟩])).1
            = assistantCount hist + (f + 1) := by
      intro pa
      have hih := ih (hist ++ [⟨Role.assistant, pyStrip (model hist)⟩,
        ⟨Role.user, observationFor te pa⟩])
      rw [assistantCount_step] at hih
      exact ⟨hih.1, by omega⟩
    cases hp : parseOutput (pyStrip (model hist)) with
    | finalAnswer t => exact absurd hp (hnf hist t)
    | toolCall n i => simp only [runLoop, hp]; exact hrec _
    | parseError m => simp only [runLoop, hp]; exact hrec _
    | noAction => simp only [runLoop, hp]; exact hrec _

/-- C1 (amended): for every assistant-turn text containing the literal
substring "Final Answer:", the parse step of run returns a FinalAnswer whose
text is the segment after the first occurrence of the marker truncated at the
next occurrence of the same marker if any (equal to everything after the
first occurrence whenever the marker occurs exactly once), trimmed of
surrounding whitespace.  The theorem assumes nothing about "Action:" /
"Action Input:" occurrences, so this check takes precedence over action
parsing even when both action markers appear in the same text. -/
theorem claimC1 (text : List Char) (h : containsSub finalAnswerMarker text = true) :
    parseOutput text
      = ParsedAction.finalAnswer (pyStrip (segBetween finalAnswerMarker text)) := by
  unfold parseOutput
  rw [if_pos h, pySplit_getD_one (by decide) h]

/-- Witness for C1 at a concrete response that also contains an Action pair
before the final answer (exercising the precedence part). -/
theorem claimC1_wit :
    containsSub finalAnswerMarker
        ("Action: search\nAction Input: q\nFinal Answer: done".toList) = true
    ∧ parseOutput ("Action: search\nAction Input: q\nFinal Answer: done".toList)
        = ParsedAction.finalAnswer ("done".toList) := by
  refine ⟨by decide, ?_⟩
  exact (claimC1 _ (by decide)).trans (by decide)

/-- Counterexample to C1 as stated: on a text with two occurrences of
"Final Answer:" the code keeps only the segment between the first and the
second occurrence, not everything after the first occurrence. -/
theorem claimC1_cx :
    parseOutput ("Final Answer: alpha\nFinal Answer: beta".toList)
        = ParsedAction.finalAnswer ("alpha".toList)
    ∧ pyStrip (afterFirstD finalAnswerMarker
        ("Final Answer: alpha\nFinal Answer: beta".toList))
        = "alpha\nFinal Answer: beta".toList
    ∧ ("alpha".toList : List Char) ≠ "alpha\nFinal Answer: beta".toList :=
  ⟨by decide, by decide, by decide⟩

/-- C4: for every dispatched ToolCall whose name is registered, the input
text is passed to Tool.execute under the key "query" when the name is
"search", under "url" when it is "bluesky_fetch", and under "image_url" for
every other registered name. -/
theorem claimC4 (name input : List Char) (hmem : name ∈ toolNames) :
    (dispatchCall name input).name = name
    ∧ (dispatchCall name input).value = input
    ∧ (name = "search".toList → (dispatchCall name input).key = "query".toList)
    ∧ (name = "bluesky_fetch".toList → (dispatchCall name input).key = "url".toList)
    ∧ (name ≠ "search".toList → name ≠ "bluesky_fetch".toList →
        (dispatchCall name input).key = "image_url".toList) := by
  refine ⟨rfl, rfl, ?_, ?_, ?_⟩
  · intro h
    subst h
    show dispatchKey ("search".toList) = "query".toList
    decide
  · intro h
    subst h
    show dispatchKey ("bluesky_fetch".toList) = "url".toList
    decide
  · intro h1 h2
    show dispatchKey name = "image_url".toList
    unfold dispatchKey
    rw [if_neg h1, if_neg h2]

/-- Witness for C4 at the remaining registered tool name, vision. -/
theorem claimC4_wit :
    (dispatchCall ("vision".toList) ("http://img".toList)).key = "image_url".toList :=
  (claimC4 ("vision".toList) ("http://img".toList) (by decide)).2.2.2.2
    (by decide) (by decide)

/-- C5 (amended): for every assistant text containing both "Action:" and
"Action Input:" as substrings but not "Final Answer:": when at least one line
begins with "Action:" and at least one line begins with "Action Input:", the
parse step produces a ToolCall whose name is the text of the first such
"Action:" line after the marker, truncated at any further occurrence of
"Action:" on that line, trimmed and lower-cased, and whose input is likewise
taken from the first "Action Input:" line, captured only up to the end of
that line; when the substrings occur but no line begins with one of the
markers, the step instead degrades to the caught IndexError outcome.
Multiple "Action:" lines: only the first (find?) is used. -/
theorem claimC5 (text : List Char)
    (hfa : containsSub finalAnswerMarker text = false)
    (ha : containsSub actionMarker text = true)
    (hai : containsSub actionInputMarker text = true) :
    (∀ aLine iLine,
        (pyLines text).find? (fun l => actionMarker.isPrefixOf l) = some aLine →
        (pyLines text).find? (fun l => actionInputMarker.isPrefixOf l) = some iLine →
        parseOutput text = ParsedAction.toolCall
          (pyLower (pyStrip (segBetween actionMarker aLine)))
          (pyStrip (segBetween actionInputMarker iLine)))
    ∧ (((pyLines text).find? (fun l => actionMarker.isPrefixOf l) = none
        ∨ (pyLines text).find? (fun l => actionInputMarker.isPrefixOf l) = none) →
        parseOutput text = ParsedAction.parseError indexErrorMsg) := by
  have hunfold : parseOutput text =
      match (pyLines text).filter (fun l => actionMarker.isPrefixOf l),
            (pyLines text).filter (fun l => actionInputMarker.isPrefixOf l) with
      | actionLine :: _, inputLine :: _ =>
        ParsedAction.toolCall
          (pyLower (pyStrip ((pySplit actionMarker actionLine).getD 1 [])))
          (pyStrip ((pySplit actionInputMarker inputLine).getD 1 []))
      | _, _ => ParsedAction.parseError indexErrorMsg := by
    unfold parseOutput
    rw [if_neg (by simp [hfa]), if_pos (by simp [ha, hai])]
  constructor
  · intro aLine iLine hfA hfI
    have hpA : actionMarker.isPrefixOf aLine = true := by
      have := List.find?_some hfA
      simpa using this
    have hpI : actionInputMarker.isPrefixOf iLine = true := by
      have := List.find?_some hfI
      simpa using this
    rw [find_eq_filter_head] at hfA hfI
    obtain ⟨tA, htA⟩ : ∃ tA,
        (pyLines text).filter (fun l => actionMarker.isPrefixOf l) = aLine :: tA := by
      cases hfil : (pyLines text).filter (fun l => actionMarker.isPrefixOf l) with
      | nil => rw [hfil] at hfA; simp at hfA
      | cons x xs =>
        rw [hfil] at hfA
        simp at hfA
        exact ⟨xs, by rw [hfA]⟩
    obtain ⟨tI, htI⟩ : ∃ tI,
        (pyLines text).filter (fun l => actionInputMarker.isPrefixOf l) = iLine :: tI := by
      cases hfil : (pyLines text).filter (fun l => actionInputMarker.isPrefixOf l) with
      | nil => rw [hfil] at hfI; simp at hfI
      | cons x xs =>
        rw [hfil] at hfI
        simp at hfI
        exact ⟨xs, by rw [hfI]⟩
    rw [hunfold]
    simp only [htA, htI]
    rw [pySplit_getD_one (by decide) (containsSub_of_isPrefixOf hpA),
        pySplit_getD_one (by decide) (containsSub_of_isPrefixOf hpI)]
  · intro hor
    simp only [find_eq_filter_head, List.head?_eq_none_iff] at hor
    rw [hunfold]
    rcases hor with hnil | hnil
    · rw [hnil]
    · rw [hnil]
      cases (pyLines text).filter (fun l => actionMarker.isPrefixOf l) with
      | nil => rfl
      | cons x xs => rfl

/-- Witness for C5 at a concrete well-formed ReAct response with an
upper-case tool name. -/
theorem claimC5_wit :
    parseOutput ("Thought: t\nAction: SEARCH\nAction Input: what is peak".toList)
      = ParsedAction.toolCall ("search".toList) ("what is peak".toList) := by
  have h := (claimC5 ("Thought: t\nAction: SEARCH\nAction Input: what is peak".toList)
      (by decide) (by decide) (by decide)).1
      ("Action: SEARCH".toList) ("Action Input: what is peak".toList)
      (by decide) (by decide)
  exact h.trans (by decide)

/-- Counterexample to C5 as stated: a text whose markers occur only after
leading spaces contains both substrings yet starts no line with them, so the
code raises IndexError internally and produces the caught-exception outcome
instead of the ToolCall the claim requires. -/
theorem claimC5_cx :
    containsSub actionMarker (" Action: a\n Action Input: b".toList) = true
    ∧ containsSub actionInputMarker (" Action: a\n Action Input: b".toList) = true
    ∧ containsSub finalAnswerMarker (" Action: a\n Action Input: b".toList) = false
    ∧ parseOutput (" Action: a\n Action Input: b".toList)
        = ParsedAction.parseError indexErrorMsg :=
  ⟨by decide, by decide, by decide, by decide⟩

/-- C2: every invocation of run performs at most max_steps (= 5) model
invocations (one assistant turn is appended per invocation, so the assistant
count of the final transcript counts them); and when no model response parses
to a FinalAnswer, run returns the fixed exhaustion message as a normal value
after exactly max_steps completed steps — a sixth invocation never occurs. -/
theorem claimC2 (prev : List Turn) (model : List Turn → List Char)
    (te : ToolInvocation → Except (List Char) (List Char)) (c u : List Char) :
    assistantCount (run prev model te c u).1 ≤ maxSteps
    ∧ ((∀ (h : List Turn) (t : List Char),
          parseOutput (pyStrip (model h)) ≠ ParsedAction.finalAnswer t) →
        (run prev model te c u).2 = exhaustedMsg
        ∧ assistantCount (run prev model te c u).1 = maxSteps) := by
  have hinit : assistantCount
      [(⟨Role.system, systemPromptText⟩ : Turn),
       (⟨Role.user, initialUserContent c u⟩ : Turn)] = 0 := by
    simp [assistantCount, List.countP_cons]
  constructor
  · have hle := runLoop_count_le model te maxSteps
      [(⟨Role.system, systemPromptText⟩ : Turn),
       (⟨Role.user, initialUserContent c u⟩ : Turn)]
    rw [hinit] at hle
    simpa [run] using hle
  · intro hnf
    have hx := runLoop_exhaust model te hnf maxSteps
      [(⟨Role.system, systemPromptText⟩ : Turn),
       (⟨Role.user, initialUserContent c u⟩ : Turn)]
    rw [hinit] at hx
    constructor
    · exact hx.1
    · simpa [run] using hx.2

/-- Witness for C2 with a model oracle that never emits an action or a final
answer: the run ends in the exhaustion message after exactly 5 steps. -/
theorem claimC2_wit :
    (run [] (fun _ => []) (fun _ => Except.ok []) [] []).2 = exhaustedMsg
    ∧ assistantCount (run [] (fun _ => []) (fun _ => Except.ok []) [] []).1 = maxSteps :=
  (claimC2 [] (fun _ => []) (fun _ => Except.ok []) [] []).2
    (fun h t hEq => by
      have hx : parseOutput (pyStrip ([] : List Char)) = ParsedAction.noAction := by decide
      exact ParsedAction.noConfusion (hx.symm.trans hEq))

/-- C3: the transcript is re-initialized at the start of every run (the
previous history value never influences the run), and at every point during
the run — every prefix of the final transcript, since the loop only appends —
turn 0 has the system role, turn 1 has the user role, and all later turns
strictly alternate assistant (even indices) and user (odd indices) roles. -/
theorem claimC3 (prev1 prev2 : List Turn) (model : List Turn → List Char)
    (te : ToolInvocation → Except (List Char) (List Char)) (c u : List Char) :
    run prev1 model te c u = run prev2 model te c u
    ∧ ∀ pre, pre <+: (run prev1 model te c u).1 → rolesOk pre := by
  constructor
  · rfl
  · intro pre hpre
    obtain ⟨rest, hrest⟩ := hpre
    have hall : rolesOk (run prev1 model te c u).1 := by
      apply runLoop_roles model te maxSteps
      · exact ⟨rfl, rfl, trivial⟩
      · simp
      · simp
    rw [← hrest] at hall
    exact rolesFrom_prefix pre rest 0 hall

/-- Witness for C3: the full final transcript of a concrete run satisfies the
role invariant. -/
theorem claimC3_wit :
    rolesOk (run [] (fun _ => "Final Answer: ok".toList)
      (fun _ => Except.ok []) ("hi".toList) []).1 :=
  (claimC3 [] [] (fun _ => "Final Answer: ok".toList)
    (fun _ => Except.ok []) ("hi".toList) []).2 _ (List.prefix_refl _)

/-- C6: every exception raised during action extraction (modelled by the
parseError outcome carrying str(e)) or during tool dispatch (modelled by the
tool oracle returning .error e) is caught at the loop boundary and converted
into an observation that begins with the error marker
"Observation: Error parsing action: " and carries the exception description;
the loop then appends it as a user turn and proceeds to the next step instead
of terminating abnormally (runLoop is total, and the step equation shows the
recursion continuing). -/
theorem claimC6 (te : ToolInvocation → Except (List Char) (List Char))
    (name input e m : List Char) (model : List Turn → List Char)
    (fuel : Nat) (hist : List Turn) :
    (name ∈ toolNames → te (dispatchCall name input) = Except.error e →
        observationFor te (ParsedAction.toolCall name input) = obsErrorMarker ++ e)
    ∧ observationFor te (ParsedAction.parseError m) = obsErrorMarker ++ m
    ∧ obsErrorMarker <+: obsErrorMarker ++ e
    ∧ ((parseOutput (pyStrip (model hist))).isFinal = false →
        runLoop model te (fuel + 1) hist =
          runLoop model te fuel
            (hist ++ [⟨Role.assistant, pyStrip (model hist)⟩,
                      ⟨Role.user, observationFor te (parseOutput (pyStrip (model hist)))⟩])) := by
  refine ⟨?_, rfl, List.prefix_append _ _, runLoop_step model te fuel hist⟩
  intro hmem hte
  show (if name ∈ toolNames then
      match te (dispatchCall name input) with
      | .ok r => "Observation: ".toList ++ r
      | .error e => obsErrorMarker ++ e
    else "Observation: Error: Tool ".toList ++ [squote] ++ name ++ [squote]
      ++ " not found.".toList) = obsErrorMarker ++ e
  rw [if_pos hmem, hte]

/-- Witness for C6: a registered tool whose backend raises turns into the
error-marked observation, and the loop continues for one more step. -/
theorem claimC6_wit :
    observationFor (fun _ => Except.error ("boom".toList))
        (ParsedAction.toolCall ("vision".toList) ("u".toList))
      = obsErrorMarker ++ "boom".toList
    ∧ runLoop (fun _ => "Action: vision\nAction Input: u".toList)
        (fun _ => Except.error ("boom".toList)) (0 + 1) [] =
      runLoop (fun _ => "Action: vision\nAction Input: u".toList)
        (fun _ => Except.error ("boom".toList)) 0
        ([] ++ [⟨Role.assistant,
            pyStrip ((fun (_ : List Turn) => "Action: vision\nAction Input: u".toList) [])⟩,
          ⟨Role.user, observationFor (fun _ => Except.error ("boom".toList))
            (parseOutput (pyStrip
              ((fun (_ : List Turn) => "Action: vision\nAction Input: u".toList) [])))⟩]) :=
  ⟨(claimC6 (fun _ => Except.error ("boom".toList)) ("vision".toList) ("u".toList)
      ("boom".toList) [] (fun _ => "x".toList) 0 []).1 (by decide) rfl,
   (claimC6 (fun _ => Except.error ("boom".toList)) ("vision".toList) ("u".toList)
      ("boom".toList) [] (fun _ => "Action: vision\nAction Input: u".toList) 0 []).2.2.2
      (by decide)⟩

/-- C7: when an assistant text yields neither a final answer nor an
extractable tool call, the loop recovers locally: with none of the three
markers present the parse step yields the no-action outcome and the
observation is the fixed instructive message; with an extracted tool name not
in the registry the observation contains an explicit "not found" indication.
In both cases the observation is appended as a user-role turn and the loop
continues (step equation). -/
theorem claimC7 (te : ToolInvocation → Except (List Char) (List Char))
    (text name input : List Char) (model : List Turn → List Char)
    (fuel : Nat) (hist : List Turn) :
    ((containsSub actionMarker text = false ∧ containsSub actionInputMarker text = false
        ∧ containsSub finalAnswerMarker text = false) →
      parseOutput text = ParsedAction.noAction
      ∧ observationFor te ParsedAction.noAction = instructiveMsg)
    ∧ (name ∉ toolNames →
        observationFor te (ParsedAction.toolCall name input)
          = "Observation: Error: Tool ".toList ++ [squote] ++ name ++ [squote]
            ++ " not found.".toList
        ∧ containsSub ("not found".toList)
            (observationFor te (ParsedAction.toolCall name input)) = true)
    ∧ ((parseOutput (pyStrip (model hist))).isFinal = false →
        runLoop model te (fuel + 1) hist =
          runLoop model te fuel
            (hist ++ [⟨Role.assistant, pyStrip (model hist)⟩,
                      ⟨Role.user, observationFor te (parseOutput (pyStrip (model hist)))⟩])) := by
  refine ⟨?_, ?_, runLoop_step model te fuel hist⟩
  · intro ⟨ha, hai, hfa⟩
    refine ⟨?_, rfl⟩
    unfold parseOutput
    rw [if_neg (by simp [hfa]), if_neg (by simp [ha])]
  · intro hmem
    have hobs : observationFor te (ParsedAction.toolCall name input)
        = "Observation: Error: Tool ".toList ++ [squote] ++ name ++ [squote]
          ++ " not found.".toList := by
      show (if name ∈ toolNames then
          match te (dispatchCall name input) with
          | .ok r => "Observation: ".toList ++ r
          | .error e => obsErrorMarker ++ e
        else "Observation: Error: Tool ".toList ++ [squote] ++ name ++ [squote]
          ++ " not found.".toList) = _
      rw [if_neg hmem]
    refine ⟨hobs, ?_⟩
    rw [hobs]
    have hsuffix : containsSub ("not found".toList) (" not found.".toList) = true := by decide
    have h1 := containsSub_append_right ("not found".toList) (" not found.".toList) hsuffix
      ("Observation: Error: Tool ".toList ++ [squote] ++ name ++ [squote])
    simpa [List.append_assoc] using h1

/-- Witness for C7: a markerless model reply yields the instructive
observation; an unregistered tool name yields the "not found" observation;
the loop continues for one more step in the markerless case. -/
theorem claimC7_wit :
    (parseOutput ("hello".toList) = ParsedAction.noAction
      ∧ observationFor (fun _ => Except.ok []) ParsedAction.noAction = instructiveMsg)
    ∧ (observationFor (fun _ => Except.ok [])
          (ParsedAction.toolCall ("shell".toList) ("ls".toList))
        = "Observation: Error: Tool ".toList ++ [squote] ++ "shell".toList ++ [squote]
          ++ " not found.".toList
      ∧ containsSub ("not found".toList)
          (observationFor (fun _ => Except.ok [])
            (ParsedAction.toolCall ("shell".toList) ("ls".toList))) = true)
    ∧ runLoop (fun _ => "hello".toList) (fun _ => Except.ok []) (0 + 1) [] =
        runLoop (fun _ => "hello".toList) (fun _ => Except.ok []) 0
          ([] ++ [⟨Role.assistant, pyStrip ((fun (_ : List Turn) => "hello".toList) [])⟩,
            ⟨Role.user, observationFor (fun _ => Except.ok [])
              (parseOutput (pyStrip ((fun (_ : List Turn) => "hello".toList) [])))⟩]) :=
  ⟨(claimC7 (fun _ => Except.ok []) ("hello".toList) ("shell".toList) ("ls".toList)
      (fun _ => "hello".toList) 0 []).1 ⟨by decide, by decide, by decide⟩,
   (claimC7 (fun _ => Except.ok []) ("hello".toList) ("shell".toList) ("ls".toList)
      (fun _ => "hello".toList) 0 []).2.1 (by decide),
   (claimC7 (fun _ => Except.ok []) ("hello".toList) ("shell".toList) ("ls".toList)
      (fun _ => "hello".toList) 0 []).2.2 (by decide)⟩

/-- C8 (amended): every JudgeScore produced by _judge_output carries integer
factuality and utility ratings plus free-text reasoning, but the 1-5 range is
only requested from the judge model, never enforced: a successfully parsed
judge reply is returned unvalidated, and on any judging failure the fixed
sentinel score with factuality 0, utility 0 and reasoning "Error in judging."
is returned instead — so ratings lie in 1-5 only when the judge reply does,
with 0 as the out-of-range failure value. -/
theorem claimC8 (judgeReply : Except (List Char) JudgeScore) :
    ((∀ sc, judgeReply = Except.ok sc →
        1 ≤ sc.factuality ∧ sc.factuality ≤ 5 ∧ 1 ≤ sc.utility ∧ sc.utility ≤ 5) →
      0 ≤ (judgeOutput judgeReply).factuality ∧ (judgeOutput judgeReply).factuality ≤ 5
      ∧ 0 ≤ (judgeOutput judgeReply).utility ∧ (judgeOutput judgeReply).utility ≤ 5)
    ∧ (∀ e, judgeReply = Except.error e → judgeOutput judgeReply = judgeErrorScore) := by
  constructor
  · intro h
    cases judgeReply with
    | ok sc =>
      obtain ⟨h1, h2, h3, h4⟩ := h sc rfl
      simp only [judgeOutput]
      exact ⟨by omega, by omega, by omega, by omega⟩
    | error e =>
      simp only [judgeOutput]
      exact ⟨by decide, by decide, by decide, by decide⟩
  · intro e he
    subst he
    rfl

/-- Witness for C8 at an in-range judge reply. -/
theorem claimC8_wit :
    0 ≤ (judgeOutput (Except.ok ⟨3, 4, []⟩)).factuality
    ∧ (judgeOutput (Except.ok ⟨3, 4, []⟩)).factuality ≤ 5
    ∧ 0 ≤ (judgeOutput (Except.ok ⟨3, 4, []⟩)).utility
    ∧ (judgeOutput (Except.ok ⟨3, 4, []⟩)).utility ≤ 5 :=
  (claimC8 (Except.ok ⟨3, 4, []⟩)).1
    (fun sc h => by
      injection h with h2
      subst h2
      exact ⟨by decide, by decide, by decide, by decide⟩)

/-- Counterexample to C8 as stated: when judging fails, _judge_output returns
the sentinel score whose factuality is 0, outside the claimed 1-5 range. -/
theorem claimC8_cx :
    judgeOutput (Except.error ("boom".toList)) = judgeErrorScore
    ∧ ¬(1 ≤ (judgeOutput (Except.error ("boom".toList))).factuality) :=
  ⟨rfl, by decide⟩

/-- C9 (amended): BlueskyTool.execute returns the format-error string
"Error: Invalid Bluesky URL format." exactly when the url lacks the substring
"bsky.app/profile/" or lacks "/post/".  When both substrings are present the
format check passes, and the extraction works on the segment after the first
"bsky.app/profile/" truncated at any second occurrence of that marker: if
that segment contains "/post/", the handle is the part of the segment before
its first "/post/" and the rkey is the first "/"-separated component after
it; otherwise indexing parts[1] raises IndexError and execute returns the
caught-exception string "Error fetching Bluesky post: list index out of
range" instead of proceeding with a handle and rkey. -/
theorem claimC9 (url : List Char) :
    (blueskyExtract url = Except.error formatErrMsg ↔
      (containsSub profileMarker url = false ∨ containsSub postMarker url = false))
    ∧ (containsSub profileMarker url = true → containsSub postMarker url = true →
        ((containsSub postMarker (segBetween profileMarker url) = true →
            blueskyExtract url = Except.ok
              (beforeFirst postMarker (segBetween profileMarker url),
               beforeFirst slashSep
                 (segBetween postMarker (segBetween profileMarker url))))
        ∧ (containsSub postMarker (segBetween profileMarker url) = false →
            blueskyExtract url = Except.error fetchIndexErrMsg))) := by
  by_cases hp : containsSub profileMarker url = true
  · by_cases hq : containsSub postMarker url = true
    · have hseg : (pySplit profileMarker url).getD 1 [] = segBetween profileMarker url :=
        pySplit_getD_one (by decide) hp
      have hbranch : blueskyExtract url =
          match pySplit postMarker (segBetween profileMarker url) with
          | handle :: p1 :: _ => Except.ok (handle, (pySplit slashSep p1).getD 0 [])
          | _ => Except.error fetchIndexErrMsg := by
        unfold blueskyExtract
        rw [if_neg (by simp [hp, hq]), hseg]
      constructor
      · constructor
        · intro habs
          exfalso
          rw [hbranch] at habs
          by_cases hc2 : containsSub postMarker (segBetween profileMarker url) = true
          · obtain ⟨rest, hsp⟩ := pySplit_cons (by decide) hc2
            rw [hsp] at habs
            exact Except.noConfusion habs
          · rw [pySplit_of_not_contains (by simpa using hc2)] at habs
            have : fetchIndexErrMsg = formatErrMsg := Except.error.inj habs
            exact absurd this (by decide)
        · intro hor
          rcases hor with h | h
          · exact absurd hp (by simp [h])
          · exact absurd hq (by simp [h])
      · intro _ _
        constructor
        · intro hc2
          obtain ⟨rest, hsp⟩ := @pySplit_cons postMarker (segBetween profileMarker url) (by decide) hc2
          rw [hbranch, hsp]
          exact congrArg (fun z => Except.ok
            (beforeFirst postMarker (segBetween profileMarker url), z))
            (pySplit_getD_zero slashSep
              (segBetween postMarker (segBetween profileMarker url)))
        · intro hc2
          rw [hbranch, pySplit_of_not_contains hc2]
    · have hform : blueskyExtract url = Except.error formatErrMsg := by
        unfold blueskyExtract
        rw [if_pos (by simp [hq])]
      refine ⟨⟨fun _ => Or.inr (by simpa using hq), fun _ => hform⟩, ?_⟩
      intro _ habs
      exact absurd habs hq
  · have hform : blueskyExtract url = Except.error formatErrMsg := by
      unfold blueskyExtract
      rw [if_pos (by simp [hp])]
    refine ⟨⟨fun _ => Or.inl (by simpa using hp), fun _ => hform⟩, ?_⟩
    intro habs _
    exact absurd habs hp

/-- Witness for C9 at a well-formed post URL. -/
theorem claimC9_wit :
    blueskyExtract ("https://bsky.app/profile/alice.bsky.social/post/abc123".toList)
      = Except.ok ("alice.bsky.social".toList, "abc123".toList) := by
  have h := ((claimC9
      ("https://bsky.app/profile/alice.bsky.social/post/abc123".toList)).2
      (by decide) (by decide)).1 (by decide)
  rw [h]
  rfl

/-- Counterexample to C9 as stated: a url containing both substrings but with
"/post/" only before the profile marker passes the format check, yet no
handle / rkey are extracted — execute returns the caught IndexError string
instead. -/
theorem claimC9_cx :
    containsSub profileMarker ("/post/x bsky.app/profile/alice".toList) = true
    ∧ containsSub postMarker ("/post/x bsky.app/profile/alice".toList) = true
    ∧ blueskyExtract ("/post/x bsky.app/profile/alice".toList)
        = Except.error fetchIndexErrMsg
    ∧ fetchIndexErrMsg ≠ formatErrMsg :=
  ⟨by decide, by decide, by rfl, by decide⟩

/-- C10: the per-model average computation of run_benchmark divides the
summed factuality and utility scores by the number of cases without a guard,
so it raises ZeroDivisionError (modelled as the .error outcome) when the
loaded case list is empty, and is total exactly under the precondition that
the case list is non-empty. -/
theorem claimC10 (evalCase : Case → JudgeScore) :
    runBenchmarkAverages evalCase [] = Except.error zeroDivMsg
    ∧ ∀ cases : List Case, cases ≠ [] →
        ∃ p : Rat × Rat, runBenchmarkAverages evalCase cases = Except.ok p := by
  constructor
  · rfl
  · intro cases hne
    have hlen : ¬((cases.map evalCase).length = 0) := by
      simpa using hne
    refine ⟨(((((cases.map evalCase).map (fun r => r.factuality)).sum : Int) : Rat)
        / ((cases.map evalCase).length : Rat),
      ((((cases.map evalCase).map (fun r => r.utility)).sum : Int) : Rat)
        / ((cases.map evalCase).length : Rat)), ?_⟩
    unfold runBenchmarkAverages modelAverages
    rw [if_neg hlen]

/-- Witness for C10 at a singleton case list. -/
theorem claimC10_wit :
    ∃ p : Rat × Rat,
      runBenchmarkAverages (fun _ => ⟨3, 4, []⟩)
        [⟨[], none, [], []⟩] = Except.ok p :=
  (claimC10 (fun _ => ⟨3, 4, []⟩)).2 [⟨[], none, [], []⟩] (by simp)

end Bluesky
